import Mathlib

/-!
# Verification of the ChibiTomo Pomodoro timer core (src/main.py)

This file gives a shallow embedding of the timer / phase state machine and
notification logic of `src/main.py` (class `ChibiTomo`) and proves the
specification claims about it.

Modelling conventions:
* Python integers are modelled as `Int`.  Python `//` and `%` on the values
  appearing here are only ever applied to a non-negative dividend and a
  positive divisor, where they agree with Lean's `Int./` (`Int.ediv`) and
  `Int.%` (`Int.emod`).
* Python float division `secs / total` compared against the exactly
  representable constants `0.5` and `0.25` is modelled as exact rational
  division: with the magnitudes occurring here (denominators ≤ 7200) the
  rational value closest to 1/2 or 1/4 is more than 1e-5 away while a double
  has relative error below 1e-15, so the float comparisons in the source
  agree with the rational ones.
* GUI side effects (label texts, the progress ring, tray messages, bubbles,
  beeps) are modelled as an emitted event list; each state-mutating method
  `m` of the source is split into a state function `mS` and a trace function
  `mEv` emitting exactly the calls the Python method performs, in order.
* `random.choice(pool)` is modelled by an arbitrary index `k : Nat` selecting
  `pool[k % len(pool)]`; quantifying over `k` covers every possible draw.
* `QSettings.value(key, True)` for the two notification preferences is
  modelled by `prefOf : Option Bool → Bool` (`none` = key absent).
-/

namespace ChibiTomo

/-- Model of the `Durations` dataclass (src/main.py lines 90-95). -/
structure Durations where
  focus : Int
  brk : Int
  long_brk : Int
  sessions : Int
deriving DecidableEq, Repr

/-- The mutable timer state of class `ChibiTomo`: fields `durations`,
`phase`, `secs`, `session_count`, `_notified_50`, `_notified_25`, and the
running flag of the 1-second `QTimer` (src/main.py lines 357-364). -/
structure TState where
  durations : Durations
  phase : String
  secs : Int
  sessionCount : Int
  notified50 : Bool
  notified25 : Bool
  running : Bool
deriving DecidableEq, Repr

/-- Observable GUI effects emitted by the timer core, in the order the
Python code performs them. `notifyCall` is an invocation of `_notify`
(expanded separately by `notifyDispatch`); `completeTray` is the direct
`tray.showMessage` call in `_tick`'s completion branch. -/
inductive Ev where
  | display (text : String)
  | ringProgress (value : ℚ) (animated : Bool)
  | ringColor (color : String)
  | sessionLabel (text : String)
  | sessionHide
  | notifyCall (title message : String)
  | completeTray (title message : String)
  | bubble (text : String)
  | trayMsg (title message : String)
  | beep
deriving DecidableEq, Repr

/-- `PHASE_COLORS.get(p, "#ffffff")` (src/main.py lines 337 and 677). -/
def phaseColor (p : String) : String :=
  if p = "focus" then "#f28fad"
  else if p = "break" then "#6de0f2"
  else if p = "long_break" then "#88f2b6"
  else "#ffffff"

/-- The phase-total expression used in `_update_display` and `set_phase`
(src/main.py lines 622-626 and 679-683):
`(focus if phase == "focus" else long_brk if phase == "long_break" else brk) * 60`. -/
def phaseTotal (d : Durations) (p : String) : Int :=
  (if p = "focus" then d.focus
   else if p = "long_break" then d.long_brk
   else d.brk) * 60

/-- `progress = self.secs / total if total > 0 else 0.0`
(src/main.py lines 627 and 684). -/
def progressOf (s : TState) : ℚ :=
  if 0 < phaseTotal s.durations s.phase then
    (s.secs : ℚ) / (phaseTotal s.durations s.phase : ℚ)
  else 0

/-- Python `f"{n:02d}"` for a non-negative integer. -/
def fmt2 (n : Int) : String :=
  if n < 10 then "0" ++ toString n else toString n

/-- The `f"{m}m {s}s left"` message passed to `_notify`
(src/main.py lines 636 and 639), with `m, s = divmod(max(0, secs), 60)`. -/
def timeLeftMsg (s : TState) : String :=
  toString (max 0 s.secs / 60) ++ "m " ++ toString (max 0 s.secs % 60) ++ "s left"

/-- State effect of `_update_display` (src/main.py lines 618-649): the only
state it mutates are the two notification flags, and only when
`total > 0 and self._timer.isActive()`. -/
def updateDisplayS (s : TState) : TState :=
  if 0 < phaseTotal s.durations s.phase ∧ s.running = true then
    { s with
      notified50 := if progressOf s ≤ 1/2 ∧ s.notified50 = false then true else s.notified50,
      notified25 := if progressOf s ≤ 1/4 ∧ s.notified25 = false then true else s.notified25 }
  else s

/-- Trace of `_update_display` (src/main.py lines 618-649): set the time
label, update the ring (animated iff the timer is active), fire the 50%/25%
`_notify` calls when running and not yet notified, then show or hide the
session label. -/
def updateDisplayEv (s : TState) : List Ev :=
  [Ev.display (fmt2 (max 0 s.secs / 60) ++ ":" ++ fmt2 (max 0 s.secs % 60)),
   Ev.ringProgress (progressOf s) s.running]
  ++ (if 0 < phaseTotal s.durations s.phase ∧ s.running = true then
        (if progressOf s ≤ 1/2 ∧ s.notified50 = false
         then [Ev.notifyCall "50% remaining" (timeLeftMsg s)] else [])
        ++ (if progressOf s ≤ 1/4 ∧ s.notified25 = false
            then [Ev.notifyCall "25% remaining" (timeLeftMsg s)] else [])
      else [])
  ++ (if s.phase = "focus"
      then [Ev.sessionLabel ("Session " ++
              toString (s.sessionCount % s.durations.sessions + 1) ++ "/" ++
              toString s.durations.sessions)]
      else [Ev.sessionHide])

/-- The state `set_phase` builds before calling `_update_display`
(src/main.py lines 665-675): new phase, notification flags cleared, and
`secs` set from the phase string (any string other than `"focus"` and
`"break"` selects the long-break duration). -/
def setPhasePre (s : TState) (p : String) : TState :=
  { s with
    phase := p
    notified50 := false
    notified25 := false
    secs :=
      if p = "focus" then s.durations.focus * 60
      else if p = "break" then s.durations.brk * 60
      else s.durations.long_brk * 60 }

/-- State effect of `set_phase` (src/main.py lines 665-686). -/
def setPhaseS (s : TState) (p : String) : TState :=
  updateDisplayS (setPhasePre s p)

/-- Trace of `set_phase` (src/main.py lines 665-686): ring color
(with white fallback for unknown phases), ring progress (animated iff the
`animate_progress` argument is set), then everything `_update_display` does. -/
def setPhaseEv (s : TState) (p : String) (animate : Bool) : List Ev :=
  [Ev.ringColor (phaseColor p),
   Ev.ringProgress (progressOf (setPhasePre s p)) animate]
  ++ updateDisplayEv (setPhasePre s p)

/-- `start()` (src/main.py lines 651-652): `self._timer.start()`. -/
def startS (s : TState) : TState := { s with running := true }

/-- `pause()` (src/main.py lines 654-655): `self._timer.stop()`. -/
def pauseS (s : TState) : TState := { s with running := false }

/-- State effect of `reset()` (src/main.py lines 657-663): pause, zero the
session count, clear the notification flags, and enter the focus phase. -/
def resetS (s : TState) : TState :=
  setPhaseS { s with running := false, sessionCount := 0,
                     notified50 := false, notified25 := false } "focus"

/-- Trace of `reset()` (src/main.py lines 657-663). -/
def resetEv (s : TState) : List Ev :=
  setPhaseEv { s with running := false, sessionCount := 0,
                      notified50 := false, notified25 := false } "focus" true

/-- ASCII uppercasing of a single character. -/
def asciiUpper (c : Char) : Char :=
  if 'a' ≤ c ∧ c ≤ 'z' then Char.ofNat (c.toNat - 32) else c

/-- Split a character list at every occurrence of `sep` (model of
Python `str.split(sep)` for a one-character separator). -/
def splitChar (sep : Char) : List Char → List (List Char)
  | [] => [[]]
  | c :: t =>
    if c = sep then [] :: splitChar sep t
    else match splitChar sep t with
      | [] => [[c]]
      | w :: ws => (c :: w) :: ws

/-- Capitalize the first character of a word (Python `str.title()` restricted
to all-lowercase words, which is what the phase strings are). -/
def capWord : List Char → List Char
  | [] => []
  | c :: t => asciiUpper c :: t

/-- Join words with single spaces. -/
def joinSpace : List (List Char) → List Char
  | [] => []
  | [w] => w
  | w :: ws => w ++ ' ' :: joinSpace ws

/-- Python `p.replace('_', ' ').title()` for the (all-lowercase) phase
strings, used for the completion tray title (src/main.py line 601). -/
def phaseTitle (p : String) : String :=
  String.mk (joinSpace ((splitChar '_' p.data).map capWord))

/-- State effect of `_tick` (src/main.py lines 597-616).  If `secs <= 0`:
stop the timer, (tray message + beep), if the phase is `"focus"` increment
`session_count` and pick `"long_break"` when `session_count % sessions == 0`
else `"break"`, otherwise pick `"focus"`; enter that phase and `start()`.
Otherwise decrement `secs` and update the display. -/
def tickS (s : TState) : TState :=
  if s.secs ≤ 0 then
    startS
      (if s.phase = "focus" then
        setPhaseS { (pauseS s) with sessionCount := s.sessionCount + 1 }
          (if (s.sessionCount + 1) % s.durations.sessions = 0
           then "long_break" else "break")
      else setPhaseS (pauseS s) "focus")
  else
    updateDisplayS { s with secs := s.secs - 1 }

/-- Trace of `_tick` (src/main.py lines 597-616).  The completion branch
emits the tray message `"<Phase> Over!" / "Time to switch tasks."` and a
beep unconditionally (it does not go through `_notify`), then the
`set_phase` trace. -/
def tickEv (s : TState) : List Ev :=
  if s.secs ≤ 0 then
    [Ev.completeTray (phaseTitle s.phase ++ " Over!") "Time to switch tasks.",
     Ev.beep]
    ++ (if s.phase = "focus" then
          setPhaseEv { (pauseS s) with sessionCount := s.sessionCount + 1 }
            (if (s.sessionCount + 1) % s.durations.sessions = 0
             then "long_break" else "break") true
        else setPhaseEv (pauseS s) "focus" true)
  else updateDisplayEv { s with secs := s.secs - 1 }

/-- State effect of `_apply_mode(focus, brk, long_brk, sessions)`
(src/main.py lines 688-690): replace `Durations` and reset.  Applying the
custom-durations dialog (lines 692-696) performs the same two steps. -/
def applyModeS (f b l n : Int) (s : TState) : TState :=
  resetS { s with durations := ⟨f, b, l, n⟩ }

/-- Trace of `_apply_mode` (src/main.py lines 688-690). -/
def applyModeEv (f b l n : Int) (s : TState) : List Ev :=
  resetEv { s with durations := ⟨f, b, l, n⟩ }

/-- The state right after `__init__` finished (src/main.py lines 357-363 and
441): the constructor seeds the fields and ends with `self.reset()`, with
`d` the durations restored by `_load_settings`. -/
def initState (d : Durations) : TState :=
  resetS ⟨d, "focus", d.focus * 60, 0, false, false, false⟩

/-- The user/timer operations the widget can perform on the state machine. -/
inductive Op where
  | tick
  | start
  | pause
  | reset
  | setPhase (p : String) (animate : Bool)
  | applyMode (f b l n : Int)
deriving DecidableEq, Repr

/-- State effect of one operation. -/
def stepS : Op → TState → TState
  | Op.tick, s => tickS s
  | Op.start, s => startS s
  | Op.pause, s => pauseS s
  | Op.reset, s => resetS s
  | Op.setPhase p _, s => setPhaseS s p
  | Op.applyMode f b l n, s => applyModeS f b l n s

/-- Trace of one operation (`start` and `pause` only touch the `QTimer`). -/
def stepEv : Op → TState → List Ev
  | Op.tick, s => tickEv s
  | Op.start, _ => []
  | Op.pause, _ => []
  | Op.reset, s => resetEv s
  | Op.setPhase p a, s => setPhaseEv s p a
  | Op.applyMode f b l n, s => applyModeEv f b l n s

/-- Run a list of operations. -/
def runS (s : TState) : List Op → TState
  | [] => s
  | o :: r => runS (stepS o s) r

/-- Concatenated trace of a list of operations. -/
def runEv (s : TState) : List Op → List Ev
  | [] => []
  | o :: r => stepEv o s ++ runEv (stepS o s) r

/-- Iterated `_tick`. -/
def tickNS : Nat → TState → TState
  | 0, s => s
  | k + 1, s => tickNS k (tickS s)

/-- Concatenated trace of iterated `_tick`. -/
def tickNEv : Nat → TState → List Ev
  | 0, _ => []
  | k + 1, s => tickEv s ++ tickNEv k (tickS s)

/-- Is this event the phase-complete notification (the `tray.showMessage`
call of `_tick`'s completion branch)? -/
def isComplete : Ev → Bool
  | Ev.completeTray _ _ => true
  | _ => false

/-- Is this event an in-app bubble popup? -/
def isBubble : Ev → Bool
  | Ev.bubble _ => true
  | _ => false

/-- Number of phase-complete notifications in a trace. -/
def countComplete (evs : List Ev) : Nat :=
  (evs.filter isComplete).length

/-- All four durations positive — the spec's operating envelope
("all positive integers"; the settings dialog enforces lower bound 1). -/
def PosDur (d : Durations) : Prop :=
  0 < d.focus ∧ 0 < d.brk ∧ 0 < d.long_brk ∧ 0 < d.sessions

/-- The three phase strings the application itself ever passes to
`set_phase`. -/
def ValidPhase (p : String) : Prop :=
  p = "focus" ∨ p = "break" ∨ p = "long_break"

instance : DecidablePred ValidPhase := fun p => by
  unfold ValidPhase; infer_instance

instance (d : Durations) : Decidable (PosDur d) := by
  unfold PosDur; infer_instance

/-- States reachable from application start with durations `d`, under the
operations the GUI can trigger (`set_phase` only ever receives one of the
three phase strings — its call sites are `_tick` and `reset` — and mode /
custom-duration changes only install positive durations, enforced by the
dialog bounds). -/
inductive Reachable (d : Durations) : TState → Prop
  | init : Reachable d (initState d)
  | tick {s} : Reachable d s → Reachable d (tickS s)
  | start {s} : Reachable d s → Reachable d (startS s)
  | pause {s} : Reachable d s → Reachable d (pauseS s)
  | reset {s} : Reachable d s → Reachable d (resetS s)
  | set_phase {s p} : Reachable d s → ValidPhase p → Reachable d (setPhaseS s p)
  | apply_mode {s f b l n} : Reachable d s → PosDur ⟨f, b, l, n⟩ →
      Reachable d (applyModeS f b l n s)

/-! ## Notification dispatch (`_notify`, src/main.py lines 819-854) -/

/-- ASCII lowercasing of a single character. -/
def asciiLower (c : Char) : Char :=
  if 'A' ≤ c ∧ c ≤ 'Z' then Char.ofNat (c.toNat + 32) else c

/-- Python `str.lower()` (ASCII range, which covers the titles used). -/
def strLower (s : String) : String := String.mk (s.data.map asciiLower)

/-- Does `pat` occur as a contiguous sublist? -/
def containsSub (pat : List Char) : List Char → Bool
  | [] => pat.isPrefixOf []
  | c :: t => pat.isPrefixOf (c :: t) || containsSub pat t

/-- Python `pat in hay` for strings (substring test). -/
def strContains (hay pat : String) : Bool := containsSub pat.data hay.data

/-- `self._msgs_50` (src/main.py lines 397-408). -/
def msgs50 : List String :=
  ["Halfway there! Keep the momentum going — you’ve got this!",
   "50% done! Every step counts — finish strong.",
   "You’re crushing it! Stay focused, the finish line is in sight.",
   "Halfway is the new beginning — push forward with purpose.",
   "You’ve already proven you can start — now show you can finish.",
   "Half the time’s gone, but the best effort comes now!",
   "Momentum is your friend — don’t stop now!",
   "Midway check: your future self is proud of you already.",
   "Stay locked in. The goal is closer than it seems.",
   "You’re shining already — keep that energy alive!"]

/-- `self._msgs_25` (src/main.py lines 410-421). -/
def msgs25 : List String :=
  ["Only 25% left — now’s the time to give your best!",
   "You’ve come so far — don’t let up now!",
   "This is where champions are made — finish with power!",
   "One last push! You’re almost there!",
   "You started strong, now finish stronger.",
   "Final stretch — make it count!",
   "The top is near — keep climbing!",
   "Your focus now is your greatest strength.",
   "You’re 75% done — don’t stop until it’s 100%.",
   "Greatness lives in the final effort. Give it your all!"]

/-- `self._msgs_done` (src/main.py lines 423-434). -/
def msgsDone : List String :=
  ["You made it! Every second counts — and you just proved it!",
   "Victory! Timer complete and you nailed it!",
   "Another win in the books — your consistency is gold!",
   "Boom! That’s how champions finish!",
   "Done and dusted — success unlocked!",
   "Timer’s done — and you shined all the way through!",
   "Bullseye! You stayed the course and hit your mark!",
   "Session complete — your focus paid off big time!",
   "Mission accomplished — onward to greatness!",
   "You gave your best — and it shows. Well done!"]

/-- `random.choice(l)` modelled by an arbitrary draw index `k`. -/
def pyChoice (l : List String) (k : Nat) : String :=
  l.getD (k % l.length) ""

/-- `QSettings.value(key, True, type=bool)` for a possibly-absent stored
boolean: defaults to `true` (src/main.py lines 822-824). -/
def prefOf (stored : Option Bool) : Bool := stored.getD true

/-- Model of `_notify(title, message)` (src/main.py lines 819-854) with the
two preferences already read and `k` the random draw: pick a message variant
by matching the title against the 50% / 25% / done keywords, then show the
in-app bubble when the popup preference is on (otherwise fall back to a tray
message with the raw title and message), and beep iff the sound preference
is on. -/
def notifyDispatch (popup sound : Bool) (title message : String) (k : Nat) :
    List Ev :=
  let low := strLower title
  let chosen :=
    if strContains title "50%" || strContains low "50%" ||
       strContains low "halfway" then pyChoice msgs50 k
    else if strContains title "25%" || strContains low "25%" ||
       strContains low "final" || strContains low "final stretch" then
      pyChoice msgs25 k
    else if strContains low "over" || strContains low "done" ||
       strContains low "complete" || strContains low "time" then
      pyChoice msgsDone k
    else title ++ ": " ++ message
  (if popup then [Ev.bubble chosen] else [Ev.trayMsg title message])
  ++ (if sound then [Ev.beep] else [])

/-- Expand one trace event: a `_notify` call is replaced by its dispatch
outputs, every other effect passes through unchanged. -/
def expandEv (popup sound : Bool) (k : Nat) : Ev → List Ev
  | Ev.notifyCall t m => notifyDispatch popup sound t m k
  | e => [e]

/-- Expand a whole trace under fixed preferences and draw index. -/
def expandTrace (popup sound : Bool) (k : Nat) (evs : List Ev) : List Ev :=
  evs.flatMap (expandEv popup sound k)

/-! ## The at-most-once-per-phase-instance automaton (claim C6) -/

/-- Is this event the halfway `_notify` call? -/
def evHalf : Ev → Bool
  | Ev.notifyCall t _ => t = "50% remaining"
  | _ => false

/-- Is this event the quarter `_notify` call? -/
def evQuarter : Ev → Bool
  | Ev.notifyCall t _ => t = "25% remaining"
  | _ => false

/-- Is this event a phase entry?  `set_phase` emits exactly one ring-color
update, at the top, and nothing else does. -/
def evStart : Ev → Bool
  | Ev.ringColor _ => true
  | _ => false

/-- Acceptance of a trace by the once-per-phase-instance automaton: starting
from given 50%/25% "already fired" flags, a halfway (resp. quarter) event is
legal only when its flag is clear and sets it; a phase entry clears both. -/
def flagsOk : Bool → Bool → List Ev → Bool
  | _, _, [] => true
  | f50, f25, e :: r =>
    if evStart e then flagsOk false false r
    else if evHalf e then !f50 && flagsOk true f25 r
    else if evQuarter e then !f25 && flagsOk f50 true r
    else flagsOk f50 f25 r

/-- The automaton's flags after reading a trace. -/
def flagsAfter : Bool → Bool → List Ev → Bool × Bool
  | f50, f25, [] => (f50, f25)
  | f50, f25, e :: r =>
    if evStart e then flagsAfter false false r
    else if evHalf e then flagsAfter true f25 r
    else if evQuarter e then flagsAfter f50 true r
    else flagsAfter f50 f25 r

/-- The next-phase computation of `_tick`'s completion branch
(src/main.py lines 607-610), as a function of the pre-completion state. -/
def nextPhase (s : TState) : String :=
  if s.phase = "focus" then
    if (s.sessionCount + 1) % s.durations.sessions = 0 then "long_break"
    else "break"
  else "focus"

/-- The state `_tick`'s completion branch passes to `set_phase`: timer
stopped, and the session counter incremented when a focus phase completed. -/
def completePre (s : TState) : TState :=
  if s.phase = "focus" then
    { (pauseS s) with sessionCount := s.sessionCount + 1 }
  else pauseS s

/-! ## Basic lemmas about the embedded operations -/

theorem updateDisplayS_durations (s : TState) :
    (updateDisplayS s).durations = s.durations := by
  unfold updateDisplayS; split <;> rfl

theorem updateDisplayS_phase (s : TState) :
    (updateDisplayS s).phase = s.phase := by
  unfold updateDisplayS; split <;> rfl

theorem updateDisplayS_secs (s : TState) :
    (updateDisplayS s).secs = s.secs := by
  unfold updateDisplayS; split <;> rfl

theorem updateDisplayS_sessionCount (s : TState) :
    (updateDisplayS s).sessionCount = s.sessionCount := by
  unfold updateDisplayS; split <;> rfl

theorem updateDisplayS_running (s : TState) :
    (updateDisplayS s).running = s.running := by
  unfold updateDisplayS; split <;> rfl

/-- When the timer is paused, `_update_display` mutates nothing. -/
theorem updateDisplayS_paused {s : TState} (h : s.running = false) :
    updateDisplayS s = s := by
  unfold updateDisplayS
  rw [if_neg]
  rintro ⟨-, hr⟩
  rw [h] at hr
  exact Bool.false_ne_true hr

theorem setPhaseS_phase (s : TState) (p : String) :
    (setPhaseS s p).phase = p := by
  unfold setPhaseS; rw [updateDisplayS_phase]; rfl

theorem setPhaseS_durations (s : TState) (p : String) :
    (setPhaseS s p).durations = s.durations := by
  unfold setPhaseS; rw [updateDisplayS_durations]; rfl

theorem setPhaseS_sessionCount (s : TState) (p : String) :
    (setPhaseS s p).sessionCount = s.sessionCount := by
  unfold setPhaseS; rw [updateDisplayS_sessionCount]; rfl

theorem setPhaseS_running (s : TState) (p : String) :
    (setPhaseS s p).running = s.running := by
  unfold setPhaseS; rw [updateDisplayS_running]; rfl

theorem setPhaseS_secs (s : TState) (p : String) :
    (setPhaseS s p).secs =
      (if p = "focus" then s.durations.focus * 60
       else if p = "break" then s.durations.brk * 60
       else s.durations.long_brk * 60) := by
  unfold setPhaseS; rw [updateDisplayS_secs]; rfl

/-- For the three phases the application uses, `set_phase` sets the
remaining time to exactly the phase's total. -/
theorem setPhaseS_secs_total (s : TState) {p : String} (hp : ValidPhase p) :
    (setPhaseS s p).secs = phaseTotal s.durations p := by
  rw [setPhaseS_secs]
  rcases hp with h | h | h <;> subst h <;> simp [phaseTotal]

/-- Entering a phase with the timer paused leaves both notification flags
clear. -/
theorem setPhaseS_flags_paused {s : TState} (p : String)
    (h : s.running = false) :
    (setPhaseS s p).notified50 = false ∧ (setPhaseS s p).notified25 = false := by
  unfold setPhaseS
  rw [updateDisplayS_paused (by simpa [setPhasePre] using h)]
  exact ⟨rfl, rfl⟩

/-- With positive durations and a valid phase, the freshly entered phase
starts with progress 1. -/
theorem progressOf_setPhasePre (s : TState) {p : String}
    (hd : PosDur s.durations) (hp : ValidPhase p) :
    progressOf (setPhasePre s p) = 1 := by
  obtain ⟨hf, hb, hl, -⟩ := hd
  have hphase : (setPhasePre s p).phase = p := rfl
  have hdur : (setPhasePre s p).durations = s.durations := rfl
  have htot : 0 < phaseTotal s.durations p := by
    rcases hp with h | h | h <;> subst h <;> simp [phaseTotal] <;> omega
  have hsecs : (setPhasePre s p).secs = phaseTotal s.durations p := by
    show (if p = "focus" then s.durations.focus * 60
          else if p = "break" then s.durations.brk * 60
          else s.durations.long_brk * 60) = phaseTotal s.durations p
    rcases hp with h | h | h <;> subst h <;> simp [phaseTotal]
  unfold progressOf
  rw [hphase, hdur, hsecs, if_pos htot]
  rw [div_self]
  exact_mod_cast htot.ne'

/-- Entering any of the three valid phases under positive durations leaves
both notification flags clear, whether or not the timer is running: the
fresh phase starts at progress 1, above both thresholds. -/
theorem setPhaseS_flags_clear {s : TState} {p : String}
    (hd : PosDur s.durations) (hp : ValidPhase p) :
    (setPhaseS s p).notified50 = false ∧ (setPhaseS s p).notified25 = false := by
  have hprog := progressOf_setPhasePre s hd hp
  unfold setPhaseS updateDisplayS
  split
  · constructor
    · show (if progressOf (setPhasePre s p) ≤ 1/2 ∧
              (setPhasePre s p).notified50 = false then true
            else (setPhasePre s p).notified50) = false
      rw [if_neg]
      · rfl
      · rintro ⟨hle, -⟩
        rw [hprog] at hle
        norm_num at hle
    · show (if progressOf (setPhasePre s p) ≤ 1/4 ∧
              (setPhasePre s p).notified25 = false then true
            else (setPhasePre s p).notified25) = false
      rw [if_neg]
      · rfl
      · rintro ⟨hle, -⟩
        rw [hprog] at hle
        norm_num at hle
  · exact ⟨rfl, rfl⟩

/-! ## The two branches of `_tick` -/

theorem tickS_complete_eq {s : TState} (h : s.secs ≤ 0) :
    tickS s = startS (setPhaseS (completePre s) (nextPhase s)) := by
  unfold tickS nextPhase completePre
  rw [if_pos h]
  by_cases hf : s.phase = "focus" <;> simp [hf]

theorem tickS_pos_eq {s : TState} (h : ¬ s.secs ≤ 0) :
    tickS s = updateDisplayS { s with secs := s.secs - 1 } := by
  unfold tickS
  rw [if_neg h]

/-- The next phase computed on completion is always one of the three valid
phases. -/
theorem nextPhase_valid (s : TState) : ValidPhase (nextPhase s) := by
  unfold nextPhase ValidPhase
  split
  · split
    · exact Or.inr (Or.inr rfl)
    · exact Or.inr (Or.inl rfl)
  · exact Or.inl rfl

theorem completePre_durations (s : TState) :
    (completePre s).durations = s.durations := by
  unfold completePre; split <;> rfl

theorem completePre_running (s : TState) :
    (completePre s).running = false := by
  unfold completePre; split <;> rfl

theorem completePre_sessionCount (s : TState) :
    (completePre s).sessionCount =
      if s.phase = "focus" then s.sessionCount + 1 else s.sessionCount := by
  unfold completePre; split <;> rfl

/-- Full characterisation of a completion tick (`secs <= 0`): the next
phase is entered with its full duration, flags cleared, session counter
bumped on focus completions, and the timer running again. -/
theorem tickS_complete_spec {s : TState} (h : s.secs ≤ 0) :
    (tickS s).phase = nextPhase s ∧
    (tickS s).durations = s.durations ∧
    (tickS s).secs = phaseTotal s.durations (nextPhase s) ∧
    (tickS s).sessionCount =
      (if s.phase = "focus" then s.sessionCount + 1 else s.sessionCount) ∧
    (tickS s).notified50 = false ∧
    (tickS s).notified25 = false ∧
    (tickS s).running = true := by
  rw [tickS_complete_eq h]
  have hflags := setPhaseS_flags_paused (s := completePre s) (nextPhase s)
    (completePre_running s)
  refine ⟨?_, ?_, ?_, ?_, ?_, ?_, rfl⟩
  · show (setPhaseS (completePre s) (nextPhase s)).phase = _
    rw [setPhaseS_phase]
  · show (setPhaseS (completePre s) (nextPhase s)).durations = _
    rw [setPhaseS_durations, completePre_durations]
  · show (setPhaseS (completePre s) (nextPhase s)).secs = _
    rw [setPhaseS_secs_total _ (nextPhase_valid s), completePre_durations]
  · show (setPhaseS (completePre s) (nextPhase s)).sessionCount = _
    rw [setPhaseS_sessionCount, completePre_sessionCount]
  · exact hflags.1
  · exact hflags.2

/-- A non-completion tick decrements `secs` and touches nothing else except
possibly the notification flags. -/
theorem tickS_pos_spec {s : TState} (h : ¬ s.secs ≤ 0) :
    (tickS s).phase = s.phase ∧
    (tickS s).durations = s.durations ∧
    (tickS s).secs = s.secs - 1 ∧
    (tickS s).sessionCount = s.sessionCount ∧
    (tickS s).running = s.running := by
  rw [tickS_pos_eq h]
  exact ⟨updateDisplayS_phase _, updateDisplayS_durations _,
    updateDisplayS_secs _, updateDisplayS_sessionCount _,
    updateDisplayS_running _⟩

/-! ## Counting phase-complete notifications -/

theorem countComplete_append (a b : List Ev) :
    countComplete (a ++ b) = countComplete a + countComplete b := by
  unfold countComplete
  rw [List.filter_append, List.length_append]

theorem countComplete_updateDisplayEv (s : TState) :
    countComplete (updateDisplayEv s) = 0 := by
  unfold updateDisplayEv countComplete
  split_ifs <;> simp [isComplete]

theorem countComplete_setPhaseEv (s : TState) (p : String) (a : Bool) :
    countComplete (setPhaseEv s p a) = 0 := by
  unfold setPhaseEv
  rw [countComplete_append, countComplete_updateDisplayEv]
  rfl

/-- A completion tick emits exactly one phase-complete notification. -/
theorem countComplete_tickEv_complete {s : TState} (h : s.secs ≤ 0) :
    countComplete (tickEv s) = 1 := by
  unfold tickEv
  rw [if_pos h]
  rw [countComplete_append]
  have h2 : countComplete
      (if s.phase = "focus" then
        setPhaseEv { (pauseS s) with sessionCount := s.sessionCount + 1 }
          (if (s.sessionCount + 1) % s.durations.sessions = 0
           then "long_break" else "break") true
       else setPhaseEv (pauseS s) "focus" true) = 0 := by
    split <;> rw [countComplete_setPhaseEv]
  rw [h2]
  rfl

/-- A non-completion tick emits no phase-complete notification. -/
theorem countComplete_tickEv_pos {s : TState} (h : ¬ s.secs ≤ 0) :
    countComplete (tickEv s) = 0 := by
  unfold tickEv
  rw [if_neg h, countComplete_updateDisplayEv]

/-- The phase-complete tray message is part of every completion tick's
trace. -/
theorem completeTray_mem_tickEv {s : TState} (h : s.secs ≤ 0) :
    Ev.completeTray (phaseTitle s.phase ++ " Over!") "Time to switch tasks."
      ∈ tickEv s ∧ Ev.beep ∈ tickEv s := by
  unfold tickEv
  rw [if_pos h]
  constructor
  · exact List.mem_append_left _ (List.mem_cons_self _ _)
  · exact List.mem_append_left _ (List.mem_cons_of_mem _ (List.mem_cons_self _ _))

/-! ## Iterated ticks -/

theorem tickNS_add (m n : Nat) (s : TState) :
    tickNS (m + n) s = tickNS n (tickNS m s) := by
  induction m generalizing s with
  | zero => rw [Nat.zero_add]; rfl
  | succ m ih =>
    rw [Nat.succ_add]
    show tickNS (m + n) (tickS s) = tickNS n (tickNS m (tickS s))
    exact ih (tickS s)

theorem tickNEv_add (m n : Nat) (s : TState) :
    tickNEv (m + n) s = tickNEv m s ++ tickNEv n (tickNS m s) := by
  induction m generalizing s with
  | zero => rw [Nat.zero_add]; rfl
  | succ m ih =>
    rw [Nat.succ_add]
    show tickEv s ++ tickNEv (m + n) (tickS s) = _
    rw [ih (tickS s)]
    simp [tickNEv, tickNS, List.append_assoc]

/-- Counting down: as long as at least `k` seconds remain, `k` ticks leave
the phase, durations, session counter and running flag untouched, remove
`k` seconds, and emit no phase-complete notification. -/
theorem tickNS_countdown (k : Nat) (s : TState) (hk : (k : Int) ≤ s.secs) :
    (tickNS k s).phase = s.phase ∧
    (tickNS k s).durations = s.durations ∧
    (tickNS k s).secs = s.secs - k ∧
    (tickNS k s).sessionCount = s.sessionCount ∧
    (tickNS k s).running = s.running ∧
    countComplete (tickNEv k s) = 0 := by
  induction k generalizing s with
  | zero =>
    refine ⟨rfl, rfl, ?_, rfl, rfl, rfl⟩
    show s.secs = s.secs - ((0 : Nat) : Int)
    simp
  | succ k ih =>
    have hpos : ¬ s.secs ≤ 0 := by
      push_cast at hk
      omega
    obtain ⟨h1, h2, h3, h4, h5⟩ := tickS_pos_spec hpos
    have hk' : (k : Int) ≤ (tickS s).secs := by
      rw [h3]
      push_cast at hk ⊢
      omega
    obtain ⟨g1, g2, g3, g4, g5, g6⟩ := ih (tickS s) hk'
    have htr : tickNEv (k + 1) s = tickEv s ++ tickNEv k (tickS s) := by
      rw [Nat.add_comm k 1, tickNEv_add]
      simp [tickNEv, tickNS]
    refine ⟨?_, ?_, ?_, ?_, ?_, ?_⟩
    · show (tickNS k (tickS s)).phase = s.phase
      rw [g1, h1]
    · show (tickNS k (tickS s)).durations = s.durations
      rw [g2, h2]
    · show (tickNS k (tickS s)).secs = s.secs - (k + 1 : Nat)
      rw [g3, h3]
      push_cast
      ring
    · show (tickNS k (tickS s)).sessionCount = s.sessionCount
      rw [g4, h4]
    · show (tickNS k (tickS s)).running = s.running
      rw [g5, h5]
    · rw [htr, countComplete_append, countComplete_tickEv_pos hpos, g6]

/-! ## `reset`, `_apply_mode` and the initial state -/

/-- Field-level description of `reset()`: focus phase with the configured
focus duration, session counter zeroed, flags clear, timer stopped,
durations untouched. -/
theorem resetS_spec (s : TState) :
    (resetS s).phase = "focus" ∧
    (resetS s).durations = s.durations ∧
    (resetS s).secs = s.durations.focus * 60 ∧
    (resetS s).sessionCount = 0 ∧
    (resetS s).notified50 = false ∧
    (resetS s).notified25 = false ∧
    (resetS s).running = false := by
  unfold resetS
  have hflags := setPhaseS_flags_paused (p := "focus")
    (s := { s with running := false, sessionCount := 0,
                   notified50 := false, notified25 := false }) rfl
  refine ⟨setPhaseS_phase _ _, setPhaseS_durations _ _, ?_, setPhaseS_sessionCount _ _,
    hflags.1, hflags.2, setPhaseS_running _ _⟩
  rw [setPhaseS_secs]
  rfl

/-- `_apply_mode` installs the new durations and then behaves exactly like
`reset()`. -/
theorem applyModeS_spec (f b l n : Int) (s : TState) :
    (applyModeS f b l n s).durations = ⟨f, b, l, n⟩ ∧
    (applyModeS f b l n s).phase = "focus" ∧
    (applyModeS f b l n s).secs = f * 60 ∧
    (applyModeS f b l n s).sessionCount = 0 ∧
    (applyModeS f b l n s).notified50 = false ∧
    (applyModeS f b l n s).notified25 = false ∧
    (applyModeS f b l n s).running = false := by
  obtain ⟨h1, h2, h3, h4, h5, h6, h7⟩ :=
    resetS_spec { s with durations := (⟨f, b, l, n⟩ : Durations) }
  exact ⟨h2, h1, h3, h4, h5, h6, h7⟩

/-- The state at application start. -/
theorem initState_spec (d : Durations) :
    (initState d).phase = "focus" ∧
    (initState d).durations = d ∧
    (initState d).secs = d.focus * 60 ∧
    (initState d).sessionCount = 0 ∧
    (initState d).notified50 = false ∧
    (initState d).notified25 = false ∧
    (initState d).running = false :=
  resetS_spec _

/-! ## The remaining-time invariant (claim C4) -/

theorem phaseTotal_pos {d : Durations} {p : String}
    (hd : PosDur d) (hp : ValidPhase p) : 0 < phaseTotal d p := by
  obtain ⟨hf, hb, hl, -⟩ := hd
  rcases hp with h | h | h <;> subst h <;> simp [phaseTotal] <;> omega

/-- The inductive invariant: positive durations, a valid phase string, and
remaining seconds between 0 and the phase total. -/
def Inv (s : TState) : Prop :=
  PosDur s.durations ∧ ValidPhase s.phase ∧
    0 ≤ s.secs ∧ s.secs ≤ phaseTotal s.durations s.phase

theorem Inv_setPhaseS {s : TState} {p : String}
    (hd : PosDur s.durations) (hp : ValidPhase p) : Inv (setPhaseS s p) := by
  have hsecs := setPhaseS_secs_total s hp
  have htot := phaseTotal_pos hd hp
  refine ⟨?_, ?_, ?_, ?_⟩
  · rw [setPhaseS_durations]; exact hd
  · rw [setPhaseS_phase]; exact hp
  · rw [hsecs]; omega
  · rw [hsecs, setPhaseS_durations, setPhaseS_phase]

theorem Inv_resetS {s : TState} (hd : PosDur s.durations) : Inv (resetS s) :=
  Inv_setPhaseS (s := { s with running := false, sessionCount := 0,
                               notified50 := false, notified25 := false })
    hd (Or.inl rfl)

theorem Inv_initState {d : Durations} (hd : PosDur d) : Inv (initState d) :=
  Inv_resetS (s := ⟨d, "focus", d.focus * 60, 0, false, false, false⟩) hd

theorem Inv_tickS {s : TState} (hs : Inv s) : Inv (tickS s) := by
  obtain ⟨hd, hp, h0, hub⟩ := hs
  by_cases h : s.secs ≤ 0
  · rw [tickS_complete_eq h]
    have : Inv (setPhaseS (completePre s) (nextPhase s)) := by
      refine Inv_setPhaseS ?_ (nextPhase_valid s)
      rw [completePre_durations]; exact hd
    obtain ⟨i1, i2, i3, i4⟩ := this
    exact ⟨i1, i2, i3, i4⟩
  · obtain ⟨h1, h2, h3, h4, h5⟩ := tickS_pos_spec h
    refine ⟨?_, ?_, ?_, ?_⟩
    · rw [h2]; exact hd
    · rw [h1]; exact hp
    · rw [h3]; omega
    · rw [h3, h2, h1]; omega

theorem Inv_startS {s : TState} (hs : Inv s) : Inv (startS s) := hs

theorem Inv_pauseS {s : TState} (hs : Inv s) : Inv (pauseS s) := hs

theorem Inv_applyModeS {s : TState} {f b l n : Int}
    (hd : PosDur ⟨f, b, l, n⟩) : Inv (applyModeS f b l n s) :=
  Inv_resetS (s := { s with durations := (⟨f, b, l, n⟩ : Durations) }) hd

/-- Every reachable state satisfies the invariant. -/
theorem Inv_reachable {d : Durations} {s : TState}
    (hd : PosDur d) (hr : Reachable d s) : Inv s := by
  induction hr with
  | init => exact Inv_initState hd
  | tick _ ih => exact Inv_tickS ih
  | start _ ih => exact Inv_startS ih
  | pause _ ih => exact Inv_pauseS ih
  | reset _ ih => exact Inv_resetS ih.1
  | set_phase _ hp ih => exact Inv_setPhaseS ih.1 hp
  | apply_mode _ hpos _ => exact Inv_applyModeS hpos

/-! ## Full phase cycles (claims C2 and C3) -/

/-- `s` is the state right at the start of a phase instance `p` with
session counter `c`: full remaining time, flags clear, timer running. -/
def PhaseStart (d : Durations) (c : Int) (p : String) (s : TState) : Prop :=
  s.durations = d ∧ s.phase = p ∧ s.secs = phaseTotal d p ∧
    s.sessionCount = c ∧ s.notified50 = false ∧ s.notified25 = false ∧
    s.running = true

instance (d : Durations) (c : Int) (p : String) (s : TState) :
    Decidable (PhaseStart d c p s) := by
  unfold PhaseStart; infer_instance

/-- Running one full phase from its start: `phaseTotal` ticks count the
clock down to zero (the display shows 00:00 for one tick) and the next tick
performs the completion, entering the next phase.  Exactly one
phase-complete notification is emitted, by that last tick. -/
theorem tickN_phase_cycle {d : Durations} {c : Int} {p : String} {s : TState}
    (hd : PosDur d) (hp : ValidPhase p) (hs : PhaseStart d c p s) :
    PhaseStart d (if p = "focus" then c + 1 else c)
      (if p = "focus" then
        (if (c + 1) % d.sessions = 0 then "long_break" else "break")
       else "focus")
      (tickNS ((phaseTotal d p).toNat + 1) s) ∧
    countComplete (tickNEv ((phaseTotal d p).toNat + 1) s) = 1 := by
  obtain ⟨hdur, hph, hsec, hcnt, -, -, hrun⟩ := hs
  have htot : 0 < phaseTotal d p := phaseTotal_pos hd hp
  set k := (phaseTotal d p).toNat with hkdef
  have hk : (k : Int) = phaseTotal d p := Int.toNat_of_nonneg htot.le
  have hkle : (k : Int) ≤ s.secs := by rw [hk, hsec]
  obtain ⟨c1, c2, c3, c4, c5, c6⟩ := tickNS_countdown k s hkle
  set sk := tickNS k s with hskdef
  have hsk0 : sk.secs = 0 := by rw [c3, hsec, hk]; ring
  have hskle : sk.secs ≤ 0 := by rw [hsk0]
  obtain ⟨t1, t2, t3, t4, t5, t6, t7⟩ := tickS_complete_spec hskle
  have hnext : nextPhase sk =
      (if p = "focus" then
        (if (c + 1) % d.sessions = 0 then "long_break" else "break")
       else "focus") := by
    unfold nextPhase
    rw [c1, hph, c4, hcnt, c2, hdur]
  have hstep : tickNS (k + 1) s = tickS sk := by
    rw [tickNS_add k 1 s]
    rfl
  have hstepEv : tickNEv (k + 1) s = tickNEv k s ++ tickEv sk := by
    rw [tickNEv_add k 1 s]
    simp [tickNEv]
  constructor
  · refine ⟨?_, ?_, ?_, ?_, ?_, ?_, ?_⟩
    · rw [hstep, t2, c2, hdur]
    · rw [hstep, t1, hnext]
    · rw [hstep, t3, hnext, c2, hdur]
    · rw [hstep, t4, c1, hph, c4, hcnt]
    · rw [hstep]; exact t5
    · rw [hstep]; exact t6
    · rw [hstep]; exact t7
  · rw [hstepEv, countComplete_append, c6,
      countComplete_tickEv_complete hskle]

/-- The application's start state, once the user starts the timer, is the
start of the first focus phase. -/
theorem phaseStart_init {d : Durations} :
    PhaseStart d 0 "focus" (startS (initState d)) := by
  obtain ⟨h1, h2, h3, h4, h5, h6, -⟩ := initState_spec d
  refine ⟨h2, h1, ?_, h4, h5, h6, rfl⟩
  show (initState d).secs = phaseTotal d "focus"
  rw [h3]
  simp [phaseTotal]

/-- After any number of complete focus/break cycles the machine is back at
the start of a focus phase, with the session counter recording the number
of focus completions so far. -/
theorem focus_start_exists {d : Durations} (hd : PosDur d) (k : Nat) :
    ∃ N, PhaseStart d k "focus" (tickNS N (startS (initState d))) := by
  induction k with
  | zero => exact ⟨0, phaseStart_init⟩
  | succ k ih =>
    obtain ⟨N, hN⟩ := ih
    have hc1 := tickN_phase_cycle hd (Or.inl rfl) hN
    rw [if_pos rfl, if_pos rfl] at hc1
    set q := (if ((k : Int) + 1) % d.sessions = 0 then "long_break" else "break")
      with hqdef
    have hqvalid : ValidPhase q := by
      rw [hqdef]
      split
      · exact Or.inr (Or.inr rfl)
      · exact Or.inr (Or.inl rfl)
    have hqne : ¬ q = "focus" := by
      rw [hqdef]
      split <;> simp
    have hc2 := tickN_phase_cycle hd hqvalid hc1.1
    rw [if_neg hqne, if_neg hqne] at hc2
    refine ⟨N + ((phaseTotal d "focus").toNat + 1) +
      ((phaseTotal d q).toNat + 1), ?_⟩
    rw [tickNS_add (N + ((phaseTotal d "focus").toNat + 1))
      ((phaseTotal d q).toNat + 1), tickNS_add N ((phaseTotal d "focus").toNat + 1)]
    have : ((k : Int) + 1) = ((k + 1 : Nat) : Int) := by push_cast; ring
    rw [this] at hc2
    exact hc2.1

/-! ## Simulation of the once-per-phase-instance automaton (claim C6) -/

theorem flagsOk_append (f g : Bool) (a b : List Ev) :
    flagsOk f g (a ++ b) =
      (flagsOk f g a && flagsOk (flagsAfter f g a).1 (flagsAfter f g a).2 b) := by
  induction a generalizing f g with
  | nil => simp [flagsOk, flagsAfter]
  | cons e r ih =>
    simp only [List.cons_append, flagsOk, flagsAfter]
    split_ifs <;> simp [ih, Bool.and_assoc]

/-- `_update_display` emits a halfway / quarter notification only when the
corresponding state flag is clear, and the automaton's flags afterwards are
exactly the state's updated flags. -/
theorem flags_updateDisplay (s : TState) :
    flagsOk s.notified50 s.notified25 (updateDisplayEv s) = true ∧
    flagsAfter s.notified50 s.notified25 (updateDisplayEv s) =
      ((updateDisplayS s).notified50, (updateDisplayS s).notified25) := by
  unfold updateDisplayEv updateDisplayS
  split_ifs <;> simp_all [flagsOk, flagsAfter, evStart, evHalf, evQuarter]

/-- `set_phase` starts its trace with the phase-entry marker, so acceptance
is independent of the flags the automaton held before, and afterwards the
automaton's flags are the state's. -/
theorem flags_setPhase (f g : Bool) (s : TState) (p : String) (a : Bool) :
    flagsOk f g (setPhaseEv s p a) = true ∧
    flagsAfter f g (setPhaseEv s p a) =
      ((setPhaseS s p).notified50, (setPhaseS s p).notified25) := by
  have h := flags_updateDisplay (setPhasePre s p)
  have h50 : (setPhasePre s p).notified50 = false := rfl
  have h25 : (setPhasePre s p).notified25 = false := rfl
  rw [h50, h25] at h
  unfold setPhaseEv setPhaseS
  simpa [flagsOk, flagsAfter, evStart, evHalf, evQuarter] using h

/-- One operation of the widget keeps the automaton in lock-step with the
state's notification flags and never emits an illegal (duplicate)
notification. -/
theorem flags_step (o : Op) (s : TState) :
    flagsOk s.notified50 s.notified25 (stepEv o s) = true ∧
    flagsAfter s.notified50 s.notified25 (stepEv o s) =
      ((stepS o s).notified50, (stepS o s).notified25) := by
  cases o with
  | start => exact ⟨rfl, rfl⟩
  | pause => exact ⟨rfl, rfl⟩
  | reset => exact flags_setPhase _ _ _ "focus" true
  | setPhase p a => exact flags_setPhase _ _ _ p a
  | applyMode f b l n => exact flags_setPhase _ _ _ "focus" true
  | tick =>
    show flagsOk s.notified50 s.notified25 (tickEv s) = true ∧
      flagsAfter s.notified50 s.notified25 (tickEv s) =
        ((tickS s).notified50, (tickS s).notified25)
    by_cases h : s.secs ≤ 0
    · unfold tickEv tickS
      rw [if_pos h, if_pos h]
      by_cases hf : s.phase = "focus"
      · rw [if_pos hf, if_pos hf]
        have := flags_setPhase s.notified50 s.notified25
          { (pauseS s) with sessionCount := s.sessionCount + 1 }
          (if (s.sessionCount + 1) % s.durations.sessions = 0
           then "long_break" else "break") true
        simpa [flagsOk, flagsAfter, evStart, evHalf, evQuarter, startS]
          using this
      · rw [if_neg hf, if_neg hf]
        have := flags_setPhase s.notified50 s.notified25 (pauseS s) "focus" true
        simpa [flagsOk, flagsAfter, evStart, evHalf, evQuarter, startS]
          using this
    · unfold tickEv tickS
      rw [if_neg h, if_neg h]
      exact flags_updateDisplay { s with secs := s.secs - 1 }

/-- Any sequence of operations produces a trace the automaton accepts:
within every phase instance each of the halfway and quarter notifications
appears at most once. -/
theorem flags_run (ops : List Op) (s : TState) :
    flagsOk s.notified50 s.notified25 (runEv s ops) = true := by
  induction ops generalizing s with
  | nil => rfl
  | cons o r ih =>
    show flagsOk s.notified50 s.notified25 (stepEv o s ++ runEv (stepS o s) r)
      = true
    rw [flagsOk_append]
    obtain ⟨h1, h2⟩ := flags_step o s
    rw [h1, h2]
    exact ih (stepS o s)

/-! ## Characterising the display events (claims C8, C9, C10) -/

/-- The time label set by `_update_display` is uniquely determined. -/
theorem display_mem_updateDisplayEv (s : TState) :
    Ev.display (fmt2 (max 0 s.secs / 60) ++ ":" ++ fmt2 (max 0 s.secs % 60))
      ∈ updateDisplayEv s := by
  unfold updateDisplayEv
  exact List.mem_append_left _ (List.mem_append_left _ (List.mem_cons_self _ _))

theorem display_eq_of_mem {s : TState} {t : String}
    (h : Ev.display t ∈ updateDisplayEv s) :
    t = fmt2 (max 0 s.secs / 60) ++ ":" ++ fmt2 (max 0 s.secs % 60) := by
  unfold updateDisplayEv at h
  split_ifs at h <;> simp_all

/-- Every progress value sent to the ring by `_update_display` is the
state's progress fraction. -/
theorem ringProgress_eq_of_mem_updateDisplayEv {s : TState} {q : ℚ} {a : Bool}
    (h : Ev.ringProgress q a ∈ updateDisplayEv s) : q = progressOf s := by
  unfold updateDisplayEv at h
  split_ifs at h <;> simp_all

/-- Every progress value sent to the ring by `set_phase` is the progress
fraction of the freshly entered phase. -/
theorem ringProgress_eq_of_mem_setPhaseEv {s : TState} {p : String} {a : Bool}
    {q : ℚ} {b : Bool} (h : Ev.ringProgress q b ∈ setPhaseEv s p a) :
    q = progressOf (setPhasePre s p) := by
  unfold setPhaseEv at h
  rcases List.mem_append.mp h with h | h
  · simp_all
  · exact ringProgress_eq_of_mem_updateDisplayEv h

/-- When a progress denominator would be zero or negative, the progress
fraction is 0 instead (the `if total > 0 else 0.0` guard). -/
theorem progressOf_nonpos {s : TState}
    (h : phaseTotal s.durations s.phase ≤ 0) : progressOf s = 0 := by
  unfold progressOf
  rw [if_neg (by omega)]

/-- The session-counter label: shown with the `Session n/total` text during
focus phases. -/
theorem sessionLabel_spec_focus {s : TState} (hf : s.phase = "focus") :
    Ev.sessionLabel ("Session " ++
        toString (s.sessionCount % s.durations.sessions + 1) ++ "/" ++
        toString s.durations.sessions) ∈ updateDisplayEv s ∧
      Ev.sessionHide ∉ updateDisplayEv s := by
  unfold updateDisplayEv
  rw [if_pos hf]
  constructor
  · exact List.mem_append_right _ (List.mem_cons_self _ _)
  · intro h
    split_ifs at h <;> simp_all

/-- The session-counter label is hidden during non-focus phases. -/
theorem sessionLabel_spec_other {s : TState} (hf : ¬ s.phase = "focus") :
    Ev.sessionHide ∈ updateDisplayEv s ∧
      ∀ t, Ev.sessionLabel t ∉ updateDisplayEv s := by
  unfold updateDisplayEv
  rw [if_neg hf]
  constructor
  · exact List.mem_append_right _ (List.mem_cons_self _ _)
  · intro t h
    split_ifs at h <;> simp_all

/-- The only ring color `set_phase` emits is `PHASE_COLORS.get(p, white)`. -/
theorem ringColor_eq_of_mem_setPhaseEv {s : TState} {p : String} {a : Bool}
    {c : String} (h : Ev.ringColor c ∈ setPhaseEv s p a) : c = phaseColor p := by
  unfold setPhaseEv at h
  rcases List.mem_append.mp h with h | h
  · simp_all
  · unfold updateDisplayEv at h
    split_ifs at h <;> simp_all

/-- While the timer is stopped, `_update_display` performs no `_notify`
call. -/
theorem notifyCall_not_mem_updateDisplayEv {s : TState}
    (hr : s.running = false) (t m : String) :
    Ev.notifyCall t m ∉ updateDisplayEv s := by
  intro h
  unfold updateDisplayEv at h
  rw [if_neg (by simp [hr])] at h
  split_ifs at h <;> simp_all

/-- While the timer is stopped, a (manually invoked) `_tick` performs no
`_notify` call either: the completion branch enters the next phase with the
timer stopped and the countdown branch is guarded by `isActive()`. -/
theorem notifyCall_not_mem_tickEv {s : TState} (hr : s.running = false)
    (t m : String) : Ev.notifyCall t m ∉ tickEv s := by
  intro h
  unfold tickEv at h
  by_cases h0 : s.secs ≤ 0
  · rw [if_pos h0] at h
    rcases List.mem_append.mp h with h | h
    · simp_all
    · by_cases hf : s.phase = "focus"
      · rw [if_pos hf] at h
        unfold setPhaseEv at h
        rcases List.mem_append.mp h with h | h
        · simp_all
        · exact notifyCall_not_mem_updateDisplayEv rfl t m h
      · rw [if_neg hf] at h
        unfold setPhaseEv at h
        rcases List.mem_append.mp h with h | h
        · simp_all
        · exact notifyCall_not_mem_updateDisplayEv rfl t m h
  · rw [if_neg h0] at h
    exact notifyCall_not_mem_updateDisplayEv
      (s := { s with secs := s.secs - 1 }) hr t m h

/-! ## `_notify` dispatch lemmas (claim C7) -/

theorem pyChoice_mem {l : List String} (h : l ≠ []) (k : Nat) :
    pyChoice l k ∈ l := by
  unfold pyChoice
  have hlt : k % l.length < l.length :=
    Nat.mod_lt _ (List.length_pos.mpr h)
  rw [List.getD_eq_getElem _ _ hlt]
  exact List.getElem_mem hlt

/-- `_notify` on the halfway title: the message is drawn from the
ten-message halfway pool when the popup is shown; the popup is the in-app
bubble iff `notify_popup` is set (otherwise a raw tray message), and the
beep fires iff `notify_sound` is set. -/
theorem notifyDispatch_50 (popup sound : Bool) (m : String) (k : Nat) :
    notifyDispatch popup sound "50% remaining" m k =
      (if popup then [Ev.bubble (pyChoice msgs50 k)]
       else [Ev.trayMsg "50% remaining" m]) ++
      (if sound then [Ev.beep] else []) := by
  have h : (strContains "50% remaining" "50%" ||
      strContains (strLower "50% remaining") "50%" ||
      strContains (strLower "50% remaining") "halfway") = true := by decide
  simp only [notifyDispatch, h, if_true]

/-- `_notify` on the quarter title: message drawn from the ten-message
final-stretch pool, same gating. -/
theorem notifyDispatch_25 (popup sound : Bool) (m : String) (k : Nat) :
    notifyDispatch popup sound "25% remaining" m k =
      (if popup then [Ev.bubble (pyChoice msgs25 k)]
       else [Ev.trayMsg "25% remaining" m]) ++
      (if sound then [Ev.beep] else []) := by
  have h1 : (strContains "25% remaining" "50%" ||
      strContains (strLower "25% remaining") "50%" ||
      strContains (strLower "25% remaining") "halfway") = false := by decide
  have h2 : (strContains "25% remaining" "25%" ||
      strContains (strLower "25% remaining") "25%" ||
      strContains (strLower "25% remaining") "final" ||
      strContains (strLower "25% remaining") "final stretch") = true := by
    decide
  simp only [notifyDispatch, h1, h2, if_true, Bool.false_eq_true, if_false]

/-- Events other than `_notify` calls pass through trace expansion
unchanged; in particular the completion branch's tray message and beep
reach the user under every preference setting. -/
theorem complete_ungated {s : TState} (h : s.secs ≤ 0)
    (popup sound : Bool) (k : Nat) :
    Ev.completeTray (phaseTitle s.phase ++ " Over!") "Time to switch tasks."
        ∈ expandTrace popup sound k (tickEv s) ∧
      Ev.beep ∈ expandTrace popup sound k (tickEv s) := by
  obtain ⟨h1, h2⟩ := completeTray_mem_tickEv h
  constructor
  · exact List.mem_flatMap.mpr ⟨_, h1, by simp [expandEv]⟩
  · exact List.mem_flatMap.mpr ⟨_, h2, by simp [expandEv]⟩

/-! ## Concrete states used by witnesses and counterexamples -/

/-- The default durations (25/5/15, long break every 4 sessions). -/
def dStd : Durations := ⟨25, 5, 15, 4⟩

/-- A running focus phase whose countdown has reached zero. -/
def csComplete : TState := ⟨dStd, "focus", 0, 0, false, false, true⟩

/-- The application's start state with default durations, once started. -/
def startedInit : TState := startS (initState dStd)

/-- A state whose configured durations are all zero. -/
def csZeroDur : TState := ⟨⟨0, 0, 0, 4⟩, "focus", 0, 0, false, false, true⟩

/-! ## The claims -/

/-- C1: when `tick()` runs with `remaining_seconds == 0`, a phase-complete
notification is emitted, the next phase is computed (from Focus: increment
`session_count`, then LongBreak if `session_count mod sessions == 0` else
Break; from Break or LongBreak: always Focus), the new phase is entered
with both notification flags cleared and `remaining_seconds` set to the new
phase's full duration in seconds, and the timer resumes running. -/
theorem claim_C1 (s : TState) (h0 : s.secs = 0) (_hp : ValidPhase s.phase) :
    (Ev.completeTray (phaseTitle s.phase ++ " Over!") "Time to switch tasks."
        ∈ tickEv s ∧ Ev.beep ∈ tickEv s) ∧
    (tickS s).phase =
      (if s.phase = "focus" then
        (if (s.sessionCount + 1) % s.durations.sessions = 0
         then "long_break" else "break")
       else "focus") ∧
    (tickS s).sessionCount =
      (if s.phase = "focus" then s.sessionCount + 1 else s.sessionCount) ∧
    (tickS s).notified50 = false ∧
    (tickS s).notified25 = false ∧
    (tickS s).secs = phaseTotal s.durations (tickS s).phase ∧
    (tickS s).running = true := by
  have hle : s.secs ≤ 0 := by omega
  obtain ⟨t1, -, t3, t4, t5, t6, t7⟩ := tickS_complete_spec hle
  refine ⟨completeTray_mem_tickEv hle, ?_, t4, t5, t6, ?_, t7⟩
  · rw [t1]
    unfold nextPhase
    rfl
  · rw [t3, t1]

theorem claim_C1_witness :
    csComplete.secs = 0 ∧ ValidPhase csComplete.phase ∧
    (tickS csComplete).phase = "break" ∧
    (tickS csComplete).sessionCount = 1 ∧
    (tickS csComplete).secs = 300 ∧
    (tickS csComplete).running = true := by
  obtain ⟨-, hph, hcnt, -, -, hsecs, hrun⟩ :=
    claim_C1 csComplete (by decide) (by decide)
  refine ⟨by decide, by decide, ?_, ?_, ?_, hrun⟩
  · rw [hph]; decide
  · rw [hcnt]; decide
  · rw [hsecs, hph]; decide

/-- C2: starting from a fresh start, for every `k ≥ 1` there is a time at
which the machine has just completed its `k`-th focus phase; the phase it
entered is LongBreak exactly when `k mod sessions == 0`, otherwise Break
(so with `sessions = 4` the 4th focus completion is followed by LongBreak). -/
theorem claim_C2 {d : Durations} (hd : PosDur d) (k : Nat) (hk : 1 ≤ k) :
    ∃ N, (tickNS N (startS (initState d))).sessionCount = k ∧
      (tickNS N (startS (initState d))).phase =
        (if (k : Int) % d.sessions = 0 then "long_break" else "break") ∧
      (tickNS N (startS (initState d))).secs =
        phaseTotal d (tickNS N (startS (initState d))).phase ∧
      (tickNS N (startS (initState d))).running = true := by
  obtain ⟨N, hN⟩ := focus_start_exists hd (k - 1)
  have hcyc := tickN_phase_cycle hd (Or.inl rfl) hN
  rw [if_pos rfl, if_pos rfl] at hcyc
  have hc : ((k - 1 : Nat) : Int) + 1 = (k : Int) := by
    push_cast [Nat.cast_sub hk]
    ring
  rw [hc] at hcyc
  obtain ⟨g1, g2, g3, g4, -, -, g7⟩ := hcyc.1
  refine ⟨N + ((phaseTotal d "focus").toNat + 1), ?_, ?_, ?_, ?_⟩
  · rw [tickNS_add]; exact g4
  · rw [tickNS_add]; exact g2
  · rw [tickNS_add, g3, g2]
  · rw [tickNS_add]; exact g7

theorem claim_C2_witness :
    ∃ N, (tickNS N (startS (initState dStd))).sessionCount = 4 ∧
      (tickNS N (startS (initState dStd))).phase = "long_break" := by
  obtain ⟨N, h1, h2, -, -⟩ := claim_C2 (d := dStd) (by decide) 4 (by decide)
  refine ⟨N, h1, ?_⟩
  rw [h2]
  decide

/-- C3 as stated is false: starting a focus phase at 1500 s, after exactly
1500 ticks the countdown has merely reached zero — the machine is still in
the focus phase and no phase-complete notification has fired yet, so the
notification does not fire at the tick on which `remaining_seconds` goes
from 1 to 0, and the phase has not auto-advanced to Break after 1500
ticks. -/
theorem claim_C3_counterexample :
    (tickNS 1500 startedInit).phase = "focus" ∧
    (tickNS 1500 startedInit).secs = 0 ∧
    countComplete (tickNEv 1500 startedInit) = 0 := by
  obtain ⟨h1, -, h3, -, -, h6⟩ :=
    tickNS_countdown 1500 startedInit (by decide)
  refine ⟨?_, ?_, h6⟩
  · rw [h1]; decide
  · rw [h3]; decide

/-- C3 amended: the phase-complete notification fires exactly once, on the
1501st tick — the first tick invoked with `remaining_seconds == 0`, one
tick after the 1-to-0 transition; after those 1501 ticks the phase has
auto-advanced to Break with 300 s remaining, notification flags reset, and
the timer still running. -/
theorem claim_C3_amended :
    countComplete (tickNEv 1500 startedInit) = 0 ∧
    countComplete (tickNEv 1501 startedInit) = 1 ∧
    (tickNS 1501 startedInit).phase = "break" ∧
    (tickNS 1501 startedInit).secs = 300 ∧
    (tickNS 1501 startedInit).notified50 = false ∧
    (tickNS 1501 startedInit).notified25 = false ∧
    (tickNS 1501 startedInit).running = true := by
  have hcyc := tickN_phase_cycle (d := dStd) (c := 0) (p := "focus")
    (s := startedInit) (by decide) (by decide) (by decide)
  have hN : (phaseTotal dStd "focus").toNat + 1 = 1501 := by decide
  rw [hN] at hcyc
  have hcount0 : countComplete (tickNEv 1500 startedInit) = 0 :=
    (tickNS_countdown 1500 startedInit (by decide)).2.2.2.2.2
  obtain ⟨⟨g1, g2, g3, g4, g5, g6, g7⟩, hcnt⟩ := hcyc
  have hbreak : (if "focus" = "focus" then
      (if ((0 : Int) + 1) % dStd.sessions = 0 then "long_break" else "break")
     else "focus") = "break" := by decide
  rw [hbreak] at g2
  refine ⟨hcount0, hcnt, g2, ?_, g5, g6, g7⟩
  rw [g3, hbreak]
  decide

/-- C4: in every reachable state under positive durations — after any
sequence of ticks, start/pause, resets, valid phase entries and mode
changes — the remaining seconds lie between 0 and the current phase's
total `durations[phase] * 60`. -/
theorem claim_C4 {d : Durations} {s : TState}
    (hd : PosDur d) (hr : Reachable d s) :
    0 ≤ s.secs ∧ s.secs ≤ phaseTotal s.durations s.phase :=
  (Inv_reachable hd hr).2.2

theorem claim_C4_witness :
    PosDur dStd ∧
    (0 ≤ (initState dStd).secs ∧
      (initState dStd).secs ≤
        phaseTotal (initState dStd).durations (initState dStd).phase) :=
  ⟨by decide, claim_C4 (by decide) Reachable.init⟩

/-- C5: from any state, `reset()` yields the Focus phase with
`durations.focus * 60` seconds remaining, a zero session counter, both
notification flags false and the timer stopped; `_apply_mode` (and the
custom-durations dialog, which runs the same two statements) first replaces
the `Durations` record and then performs this same full reset, discarding
any in-progress countdown. -/
theorem claim_C5 (s : TState) (f b l n : Int) :
    ((resetS s).phase = "focus" ∧
     (resetS s).durations = s.durations ∧
     (resetS s).secs = s.durations.focus * 60 ∧
     (resetS s).sessionCount = 0 ∧
     (resetS s).notified50 = false ∧
     (resetS s).notified25 = false ∧
     (resetS s).running = false) ∧
    ((applyModeS f b l n s).durations = ⟨f, b, l, n⟩ ∧
     (applyModeS f b l n s).phase = "focus" ∧
     (applyModeS f b l n s).secs = f * 60 ∧
     (applyModeS f b l n s).sessionCount = 0 ∧
     (applyModeS f b l n s).notified50 = false ∧
     (applyModeS f b l n s).notified25 = false ∧
     (applyModeS f b l n s).running = false) :=
  ⟨resetS_spec s, applyModeS_spec f b l n s⟩

/-- C6: over any sequence of operations, every phase instance sees the
halfway and the quarter notification at most once (trace acceptance by the
once-per-instance automaton, starting from the state's own flags);
notifications are evaluated only while the timer is running, so a tick of a
paused timer performs no `_notify` call — no interleaving of `pause()` and
`start()` near a threshold can produce a duplicate for the same phase
instance; and entering any valid phase under positive durations leaves
both flags false regardless of their prior values. -/
theorem claim_C6 :
    (∀ (s : TState) (ops : List Op),
      flagsOk s.notified50 s.notified25 (runEv s ops) = true) ∧
    (∀ (s : TState), s.running = false →
      ∀ t m, Ev.notifyCall t m ∉ tickEv s) ∧
    (∀ (s : TState) (p : String), PosDur s.durations → ValidPhase p →
      (setPhaseS s p).notified50 = false ∧
        (setPhaseS s p).notified25 = false) :=
  ⟨fun s ops => flags_run ops s,
   fun _ hr t m => notifyCall_not_mem_tickEv hr t m,
   fun _ _ hd hp => setPhaseS_flags_clear hd hp⟩

theorem claim_C6_witness :
    flagsOk (initState dStd).notified50 (initState dStd).notified25
        (runEv (initState dStd) [Op.start, Op.pause, Op.reset]) = true ∧
    ((initState dStd).running = false ∧
      Ev.notifyCall "50% remaining" "25m 0s left" ∉ tickEv (initState dStd)) ∧
    (PosDur (initState dStd).durations ∧ ValidPhase "break" ∧
      (setPhaseS (initState dStd) "break").notified50 = false ∧
      (setPhaseS (initState dStd) "break").notified25 = false) :=
  ⟨claim_C6.1 (initState dStd) [Op.start, Op.pause, Op.reset],
   ⟨by decide, claim_C6.2.1 (initState dStd) (by decide) "50% remaining"
      "25m 0s left"⟩,
   ⟨by decide, by decide,
    (claim_C6.2.2 (initState dStd) "break" (by decide) (by decide)).1,
    (claim_C6.2.2 (initState dStd) "break" (by decide) (by decide)).2⟩⟩

/-- C7 as stated is false at the PhaseComplete event: with both
notification preferences disabled (and whatever the random draw), the
completion tick still dispatches a tray popup and a beep, its message is
the fixed string "Time to switch tasks." which is not an element of the
ten-message completion pool, and no in-app bubble is involved. -/
theorem claim_C7_counterexample :
    Ev.completeTray "Focus Over!" "Time to switch tasks."
        ∈ expandTrace false false 0 (tickEv csComplete) ∧
    Ev.beep ∈ expandTrace false false 0 (tickEv csComplete) ∧
    "Time to switch tasks." ∉ msgsDone ∧
    (expandTrace false false 0 (tickEv csComplete)).filter isBubble = [] := by
  decide

/-- C7 amended: the two mid-phase events select a message at random from
their fixed ten-string pools and are gated by the preferences — the in-app
bubble (carrying the pool message) is shown iff `notify_popup` is set,
otherwise a tray message with the raw title and message is shown instead,
and the beep fires iff `notify_sound` is set; both preferences default to
enabled when unset.  The PhaseComplete event does not go through this
dispatch: it always shows a fixed tray message and beeps, regardless of
both preferences, and its message is not drawn from the completion pool. -/
theorem claim_C7_amended :
    (∀ (popup sound : Bool) (m : String) (k : Nat),
      notifyDispatch popup sound "50% remaining" m k =
        (if popup then [Ev.bubble (pyChoice msgs50 k)]
         else [Ev.trayMsg "50% remaining" m]) ++
        (if sound then [Ev.beep] else []) ∧
      pyChoice msgs50 k ∈ msgs50 ∧ msgs50.length = 10) ∧
    (∀ (popup sound : Bool) (m : String) (k : Nat),
      notifyDispatch popup sound "25% remaining" m k =
        (if popup then [Ev.bubble (pyChoice msgs25 k)]
         else [Ev.trayMsg "25% remaining" m]) ++
        (if sound then [Ev.beep] else []) ∧
      pyChoice msgs25 k ∈ msgs25 ∧ msgs25.length = 10) ∧
    prefOf none = true ∧
    (∀ (s : TState) (popup sound : Bool) (k : Nat), s.secs ≤ 0 →
      Ev.completeTray (phaseTitle s.phase ++ " Over!") "Time to switch tasks."
          ∈ expandTrace popup sound k (tickEv s) ∧
        Ev.beep ∈ expandTrace popup sound k (tickEv s)) ∧
    "Time to switch tasks." ∉ msgsDone ∧ msgsDone.length = 10 := by
  refine ⟨?_, ?_, rfl, ?_, by decide, rfl⟩
  · intro popup sound m k
    exact ⟨notifyDispatch_50 popup sound m k,
      pyChoice_mem (by decide) k, rfl⟩
  · intro popup sound m k
    exact ⟨notifyDispatch_25 popup sound m k,
      pyChoice_mem (by decide) k, rfl⟩
  · intro s popup sound k h
    exact complete_ungated h popup sound k

theorem claim_C7_amended_witness :
    notifyDispatch true true "50% remaining" "12m 30s left" 3 =
      (if true then [Ev.bubble (pyChoice msgs50 3)]
       else [Ev.trayMsg "50% remaining" "12m 30s left"]) ++
      (if true then [Ev.beep] else []) ∧
    csComplete.secs ≤ 0 ∧
    Ev.beep ∈ expandTrace false false 0 (tickEv csComplete) :=
  ⟨(claim_C7_amended.1 true true "12m 30s left" 3).1, by decide,
   (claim_C7_amended.2.2.2.1 csComplete false false 0 (by decide)).2⟩

/-- C8: the countdown label text is `remaining_seconds // 60` and
`remaining_seconds % 60`, each zero-padded to two digits and joined by a
colon; the session counter text `Session n/total` with
`n = session_count mod sessions + 1` is shown during Focus phases and the
label is hidden during all other phases. -/
theorem claim_C8 (s : TState) (h : 0 ≤ s.secs) :
    (Ev.display (fmt2 (s.secs / 60) ++ ":" ++ fmt2 (s.secs % 60))
        ∈ updateDisplayEv s ∧
      ∀ t, Ev.display t ∈ updateDisplayEv s →
        t = fmt2 (s.secs / 60) ++ ":" ++ fmt2 (s.secs % 60)) ∧
    (s.phase = "focus" →
      Ev.sessionLabel ("Session " ++
          toString (s.sessionCount % s.durations.sessions + 1) ++ "/" ++
          toString s.durations.sessions) ∈ updateDisplayEv s ∧
        Ev.sessionHide ∉ updateDisplayEv s) ∧
    (s.phase ≠ "focus" →
      Ev.sessionHide ∈ updateDisplayEv s ∧
        ∀ t, Ev.sessionLabel t ∉ updateDisplayEv s) := by
  have hmax : max 0 s.secs = s.secs := max_eq_right h
  refine ⟨⟨?_, ?_⟩, sessionLabel_spec_focus, sessionLabel_spec_other⟩
  · have := display_mem_updateDisplayEv s
    rwa [hmax] at this
  · intro t ht
    have := display_eq_of_mem ht
    rwa [hmax] at this

theorem claim_C8_witness :
    0 ≤ (initState dStd).secs ∧
    Ev.display (fmt2 ((initState dStd).secs / 60) ++ ":" ++
        fmt2 ((initState dStd).secs % 60)) ∈ updateDisplayEv (initState dStd) ∧
    ((initState dStd).phase = "focus" →
      Ev.sessionLabel ("Session " ++
          toString ((initState dStd).sessionCount %
            (initState dStd).durations.sessions + 1) ++ "/" ++
          toString (initState dStd).durations.sessions)
        ∈ updateDisplayEv (initState dStd)) :=
  ⟨by decide, (claim_C8 (initState dStd) (by decide)).1.1,
   fun hf => ((claim_C8 (initState dStd) (by decide)).2.1 hf).1⟩

/-- C9: the progress computation is total — whenever the phase total is 0
or negative, every progress value sent to the ring is 0.0 instead of a
division error, both on the tick/display path and on the phase-entry path;
and the displayed minutes and seconds are computed from
`max(0, remaining_seconds)`, so the countdown text never shows a negative
component. -/
theorem claim_C9 (s : TState) (p : String) (a : Bool) :
    (phaseTotal s.durations s.phase ≤ 0 →
      ∀ q b, Ev.ringProgress q b ∈ updateDisplayEv s → q = 0) ∧
    (phaseTotal s.durations p ≤ 0 →
      ∀ q b, Ev.ringProgress q b ∈ setPhaseEv s p a → q = 0) ∧
    (∀ t, Ev.display t ∈ updateDisplayEv s →
      ∃ m sec, 0 ≤ m ∧ 0 ≤ sec ∧ t = fmt2 m ++ ":" ++ fmt2 sec) := by
  refine ⟨?_, ?_, ?_⟩
  · intro htot q b hq
    rw [ringProgress_eq_of_mem_updateDisplayEv hq]
    exact progressOf_nonpos htot
  · intro htot q b hq
    rw [ringProgress_eq_of_mem_setPhaseEv hq]
    exact progressOf_nonpos (s := setPhasePre s p) htot
  · intro t ht
    refine ⟨max 0 s.secs / 60, max 0 s.secs % 60, ?_, ?_,
      display_eq_of_mem ht⟩
    · exact Int.ediv_nonneg (le_max_left 0 s.secs) (by norm_num)
    · exact Int.emod_nonneg _ (by norm_num)

theorem claim_C9_witness :
    phaseTotal csZeroDur.durations csZeroDur.phase ≤ 0 ∧
    Ev.ringProgress 0 true ∈ updateDisplayEv csZeroDur ∧
    (0 : ℚ) = 0 :=
  ⟨by decide, by decide,
   (claim_C9 csZeroDur "focus" true).1 (by decide) 0 true (by decide)⟩

/-- C10: `set_phase` treats any phase string other than `"focus"` and
`"break"` as a long break — `remaining_seconds` becomes
`durations.long_brk * 60` — and an unknown phase string (none of the three
known keys) falls back to the white ring color `#ffffff` instead of
failing. -/
theorem claim_C10 (s : TState) (p : String) (a : Bool)
    (h1 : p ≠ "focus") (h2 : p ≠ "break") :
    (setPhaseS s p).secs = s.durations.long_brk * 60 ∧
    (p ≠ "long_break" → phaseColor p = "#ffffff") ∧
    (p ≠ "long_break" →
      ∀ c, Ev.ringColor c ∈ setPhaseEv s p a → c = "#ffffff") := by
  refine ⟨?_, ?_, ?_⟩
  · rw [setPhaseS_secs, if_neg h1, if_neg h2]
  · intro h3
    unfold phaseColor
    rw [if_neg h1, if_neg h2, if_neg h3]
  · intro h3 c hc
    rw [ringColor_eq_of_mem_setPhaseEv hc]
    unfold phaseColor
    rw [if_neg h1, if_neg h2, if_neg h3]

theorem claim_C10_witness :
    "purple" ≠ "focus" ∧ "purple" ≠ "break" ∧
    (setPhaseS (initState dStd) "purple").secs =
      (initState dStd).durations.long_brk * 60 ∧
    phaseColor "purple" = "#ffffff" :=
  ⟨by decide, by decide,
   (claim_C10 (initState dStd) "purple" true (by decide) (by decide)).1,
   (claim_C10 (initState dStd) "purple" true (by decide) (by decide)).2.1
     (by decide)⟩

end ChibiTomo
